import Mathlib

/-!
Verification development for the kidsCalendar application.

The TypeScript sources are shallowly embedded: JS strings are modeled as
Lean strings (lists of characters), JS numbers that can be NaN are modeled
as `Option Int` (none = NaN), and stateful React updaters are modeled as
pure functions from the old state to the new state.  The JS `Number` and
`parseInt` conversions are modeled on the fragment the program uses:
optional-sign decimal integer literals (other numeric forms such as
decimals or hexadecimal never occur in the inputs handled here).
-/

namespace KidsCalendar

/-- Whitespace test matching the JS regex class \s on the characters used here. -/
def isWsC (c : Char) : Bool :=
  c = ' ' || c = '\t' || c = '\n' || c = '\r'

/-- Drop leading and trailing whitespace, as JS String.prototype.trim. -/
def trimChars (l : List Char) : List Char :=
  ((l.dropWhile isWsC).reverse.dropWhile isWsC).reverse

/-- Uppercase every character, as JS String.prototype.toUpperCase on ASCII. -/
def toUpperChars (l : List Char) : List Char :=
  l.map Char.toUpper

/-- Whether the two-character sequence a, b occurs in the list, as JS
String.prototype.includes with a two-character needle. -/
def containsPair (a b : Char) : List Char → Bool
  | [] => false
  | [_] => false
  | x :: y :: rest => (x = a && y = b) || containsPair a b (y :: rest)

/-- Split on a separator character, as JS String.prototype.split with a
one-character separator: the empty string yields one empty field. -/
def splitOnChar (sep : Char) : List Char → List (List Char)
  | [] => [[]]
  | c :: rest =>
    match splitOnChar sep rest with
    | [] => [[]]
    | t :: ts => if c = sep then [] :: t :: ts else (c :: t) :: ts

/-- Helper for splitWs: the Bool records whether we are inside a whitespace
run whose field has already been emitted. -/
def splitWsAux : List Char → Bool → List Char → List (List Char)
  | [], true, _ => [[]]
  | [], false, acc => [acc.reverse]
  | c :: rest, false, acc =>
    if isWsC c then acc.reverse :: splitWsAux rest true []
    else splitWsAux rest false (c :: acc)
  | c :: rest, true, _ =>
    if isWsC c then splitWsAux rest true []
    else splitWsAux rest false [c]

/-- Split on runs of whitespace, as the JS split with the regex of one or
more whitespace characters. -/
def splitWs (l : List Char) : List (List Char) :=
  splitWsAux l false []

/-- Value of a nonempty all-digit character list; none otherwise. -/
def digitsToNat (l : List Char) : Option Nat :=
  match l with
  | [] => none
  | _ =>
    if l.all Char.isDigit then
      some (l.foldl (fun a c => a * 10 + (c.toNat - 48)) 0)
    else none

/-- JS Number conversion on the decimal-integer fragment: none models NaN,
the empty (or all-whitespace) string converts to 0. -/
def jsNumber (l : List Char) : Option Int :=
  let t := trimChars l
  match t with
  | [] => some 0
  | '-' :: rest => (digitsToNat rest).map (fun n => -(n : Int))
  | '+' :: rest => (digitsToNat rest).map (fun n => (n : Int))
  | _ => (digitsToNat t).map (fun n => (n : Int))

/-- Longest leading digit run value, none when there is no leading digit. -/
def leadingDigits (l : List Char) : Option Nat :=
  digitsToNat (l.takeWhile Char.isDigit)

/-- JS parseInt in base 10: parses an optional sign and the longest leading
digit run, ignoring any trailing characters; none models NaN. -/
def jsParseInt (l : List Char) : Option Int :=
  let t := trimChars l
  match t with
  | '-' :: rest => (leadingDigits rest).map (fun n => -(n : Int))
  | '+' :: rest => (leadingDigits rest).map (fun n => (n : Int))
  | _ => (leadingDigits t).map (fun n => (n : Int))

/-- JS addition: NaN propagates. -/
def jadd : Option Int → Option Int → Option Int
  | some a, some b => some (a + b)
  | _, _ => none

/-- JS multiplication by a constant: NaN propagates. -/
def jmulC (a : Option Int) (k : Int) : Option Int :=
  a.map (fun v => v * k)

/-- JS strict less-than: any comparison with NaN is false. -/
def jltB : Option Int → Option Int → Bool
  | some a, some b => a < b
  | _, _ => false

/-- JS greater-or-equal: any comparison with NaN is false. -/
def jgeB : Option Int → Option Int → Bool
  | some a, some b => b ≤ a
  | _, _ => false

/-- JS less-or-equal: any comparison with NaN is false. -/
def jleB : Option Int → Option Int → Bool
  | some a, some b => a ≤ b
  | _, _ => false

/-- JS expression x or-else 0 on a number: NaN (and 0) collapse to 0. -/
def jorZero : Option Int → Int
  | some v => v
  | none => 0

/-- Models indexing a split result then passing it through Number with the
falsy default 0, as in Number of the expression parts[i] or-else 0. -/
def jsNumberFalsy : Option (List Char) → Option Int
  | none => some 0
  | some [] => some 0
  | some l => jsNumber l

/-- Models the expression parts[i] or-else a default string: a missing or
empty field is replaced by the default. -/
def jsStrFalsy : Option (List Char) → List Char → List Char
  | none, d => d
  | some [], d => d
  | some l, _ => l

/-- Decimal digit character. -/
def digitChar (d : Nat) : Char :=
  Char.ofNat (48 + d)

/-- Fuel-driven digit accumulator for natChars. -/
def natCharsAux : Nat → Nat → List Char → List Char
  | 0, _, acc => acc
  | fuel + 1, n, acc =>
    if n < 10 then digitChar n :: acc
    else natCharsAux fuel (n / 10) (digitChar (n % 10) :: acc)

/-- Decimal digits of a natural number, as JS Number.prototype.toString. -/
def natChars (n : Nat) : List Char :=
  natCharsAux (n + 1) n []

/-- Left-pad to two characters with zero, as padStart(2, zero). -/
def pad2 (n : Nat) : List Char :=
  let s := natChars n
  if s.length < 2 then '0' :: s else s

/-- The display-mode union type of types.ts: 12h or 24h. -/
inductive TimeFormat where
  | h12
  | h24
deriving DecidableEq, Repr

namespace ParentDashboard

/-- Embedding of parseTimeToMinutes from src/views/ParentDashboard.tsx lines
69 to 94.  A falsy (empty) input returns 0; a 12h string with a missing or
empty period token falls back on a period inferred from the hour value. -/
def parseTimeToMinutes (s : String) : Option Int :=
  if s = "" then some 0
  else
    let clean := toUpperChars (trimChars s.data)
    let is12h := containsPair 'A' 'M' clean || containsPair 'P' 'M' clean
    if is12h then
      let parts := splitWs clean
      let timeParts := splitOnChar ':' (parts.headD [])
      let hours0 := jsNumber (timeParts.headD [])
      let minutes0 := jsNumberFalsy (timeParts.get? 1)
      let period := jsStrFalsy (parts.get? 1)
        (if jgeB hours0 (some 12) then ['P', 'M'] else ['A', 'M'])
      let hours1 :=
        if period = ['P', 'M'] && jltB hours0 (some 12) then jadd hours0 (some 12)
        else hours0
      let hours2 :=
        if period = ['A', 'M'] && hours1 = some 12 then some 0 else hours1
      jadd (jmulC hours2 60) (some (jorZero minutes0))
    else
      let parts := splitOnChar ':' clean
      let hours0 := jsNumber (parts.headD [])
      let minutes0 := jsNumberFalsy (parts.get? 1)
      some (jorZero hours0 * 60 + jorZero minutes0)

/-- Embedding of minutesToInternalString from src/views/ParentDashboard.tsx
lines 96 to 108, on natural minute counts. -/
def minutesToInternalString (mins : Nat) (format : TimeFormat) : String :=
  let h := mins / 60 % 24
  let m := mins % 60
  if format = TimeFormat.h24 then
    String.mk (pad2 h ++ ':' :: pad2 m)
  else
    let period := if 12 ≤ h then ['P', 'M'] else ['A', 'M']
    let h12 := if h % 12 = 0 then 12 else h % 12
    String.mk (pad2 h12 ++ ':' :: pad2 m ++ ' ' :: period)

end ParentDashboard

namespace ChildPortal

/-- Embedding of parseTimeToMinutes from src/unnamed/part_004 lines 20 to 45.
Unlike the ParentDashboard variant, a missing period token has no fallback:
the two period comparisons are simply false. -/
def parseTimeToMinutes (s : String) : Option Int :=
  if s = "" then some 0
  else
    let clean := toUpperChars (trimChars s.data)
    let is12h := containsPair 'A' 'M' clean || containsPair 'P' 'M' clean
    if is12h then
      let parts := splitWs clean
      let timeParts := splitOnChar ':' (parts.headD [])
      let hours0 := jsNumber (timeParts.headD [])
      let minutes0 := jsNumberFalsy (timeParts.get? 1)
      let period := parts.get? 1
      let hours1 :=
        if period = some ['P', 'M'] && jltB hours0 (some 12) then jadd hours0 (some 12)
        else hours0
      let hours2 :=
        if period = some ['A', 'M'] && hours1 = some 12 then some 0 else hours1
      jadd (jmulC hours2 60) (some (jorZero minutes0))
    else
      let parts := splitOnChar ':' clean
      let hours0 := jsNumber (parts.headD [])
      let minutes0 := jsNumberFalsy (parts.get? 1)
      some (jorZero hours0 * 60 + jorZero minutes0)

/-- The minutes-to-text half of displayTime from src/unnamed/part_004 lines
47 to 60: the hour is not reduced modulo 24 (inputs are below 1440). -/
def displayTimeFromMinutes (mins : Nat) (format : TimeFormat) : String :=
  let h := mins / 60
  let m := mins % 60
  if format = TimeFormat.h24 then
    String.mk (pad2 h ++ ':' :: pad2 m)
  else
    let period := if 12 ≤ h then ['P', 'M'] else ['A', 'M']
    let h12 := if h % 12 = 0 then 12 else h % 12
    String.mk (pad2 h12 ++ ':' :: pad2 m ++ ' ' :: period)

end ChildPortal

end KidsCalendar

namespace KidsCalendar

/-- The task status union of types.ts: pending, active or done. -/
inductive TaskStatus where
  | pending
  | active
  | done
deriving DecidableEq, Repr

/-- The RecurrenceFrequency union of types.ts. -/
inductive RecurrenceFrequency where
  | daily
  | weekly
  | monthly
  | none
deriving DecidableEq, Repr

/-- The Language union of types.ts. -/
inductive Language where
  | en
  | es
deriving DecidableEq, Repr

/-- TaskRecurrence record of src/types.ts lines 13 to 18. -/
structure TaskRecurrence where
  frequency : RecurrenceFrequency
  days : List Nat
  dayOfMonth : Option Nat
  endDate : Option String
deriving DecidableEq, Repr

/-- Task record of src/types.ts lines 20 to 38. -/
structure Task where
  id : String
  title : String
  description : String
  reward : Int
  time : String
  duration : Option String
  startTime : Option Int
  type : String
  status : TaskStatus
  emoji : String
  recurrence : Option TaskRecurrence
  audio_pending_es : Option String
  audio_pending_en : Option String
  audio_active_es : Option String
  audio_active_en : Option String
  audio_done_es : Option String
  audio_done_en : Option String
deriving DecidableEq, Repr

/-- Reward record of src/types.ts lines 40 to 47. -/
structure Reward where
  id : String
  title : String
  category : String
  cost : Int
  image : String
  type : String
deriving DecidableEq, Repr

/-- RedemptionRecord of src/types.ts lines 49 to 56. -/
structure RedemptionRecord where
  id : String
  rewardId : String
  rewardTitle : String
  cost : Int
  timestamp : Int
  note : Option String
deriving DecidableEq, Repr

/-- Child record of src/types.ts lines 58 to 70. -/
structure Child where
  id : String
  name : String
  age : Option Int
  level : Int
  stars : Int
  avatar : String
  active : Bool
  rewards : List Reward
  tasks : List Task
  loveLanguages : Option (List String)
  redemptionHistory : Option (List RedemptionRecord)
deriving DecidableEq, Repr

namespace AppState

/-- Embedding of switchActiveChild, src/unnamed/part_001 lines 598 to 603:
every child in the list becomes active exactly when its id matches. -/
def switchActiveChild (children : List Child) (id : String) : List Child :=
  children.map fun c => { c with active := c.id == id }

/-- Embedding of updateTaskStatus, src/unnamed/part_001 lines 609 to 637
(network sync side effects omitted); now stands for Date.now(). -/
def updateTaskStatus (children : List Child) (childId taskId : String)
    (status : TaskStatus) (now : Int) : List Child :=
  children.map fun child =>
    if child.id == childId then
      { child with
        tasks := child.tasks.map fun task =>
          if task.id == taskId then
            { task with
              status := status,
              startTime := if status == TaskStatus.active then some now else task.startTime }
          else task }
    else child

/-- Embedding of redeemReward, src/unnamed/part_001 lines 639 to 682
(sound and network side effects omitted); now stands for Date.now(), used
both in the generated record id and in the timestamp. -/
def redeemReward (children : List Child) (childId : String) (reward : Reward)
    (note : Option String) (now : Int) : Bool × List Child :=
  match children.find? (fun c => c.id == childId) with
  | Option.none => (false, children)
  | some activeChild =>
    if activeChild.stars < reward.cost then (false, children)
    else
      (true, children.map fun child =>
        if child.id == childId then
          { child with
            stars := child.stars - reward.cost,
            redemptionHistory := some
              ({ id := "redemption_" ++ toString now,
                 rewardId := reward.id,
                 rewardTitle := reward.title,
                 cost := reward.cost,
                 timestamp := now,
                 note := note } :: child.redemptionHistory.getD []) }
        else child)

end AppState

/-- Models the expression s or-else d on an optional string: a missing or
empty string is replaced by the default. -/
def jsStrOr (s : Option String) (d : String) : String :=
  match s with
  | Option.none => d
  | some t => if t = "" then d else t

namespace ChildPortal

/-- The predicate of the find callback in getCurrentActiveTaskFromSchedule,
src/unnamed/part_004 lines 204 to 212: the current minute lies in the
half-open window starting at the parsed task time. -/
def taskDue (nowMinutes : Int) (task : Task) : Bool :=
  let startMins := parseTimeToMinutes task.time
  let durMins := jsParseInt (jsStrOr task.duration "0").data
  let endMins := jadd startMins durMins
  jgeB (some nowMinutes) startMins && jltB (some nowMinutes) endMins

/-- Embedding of getCurrentActiveTaskFromSchedule, src/unnamed/part_004
lines 204 to 212. -/
def getCurrentActiveTaskFromSchedule (tasks : List Task) (nowMinutes : Int) : Option Task :=
  tasks.find? (fun task => taskDue nowMinutes task)

end ChildPortal

namespace ParentDashboard

/-- Hour alternative of the 12h validation regex in isValidTime,
src/views/ParentDashboard.tsx line 59: 0?[1-9] or 1[0-2]; returns the
remaining characters on a match. -/
def hour12Match : List Char → Option (List Char)
  | '0' :: c :: rest => if '1' ≤ c ∧ c ≤ '9' then some rest else Option.none
  | '1' :: c :: rest =>
    if '0' ≤ c ∧ c ≤ '2' then some rest else some (c :: rest)
  | c :: rest => if '1' ≤ c ∧ c ≤ '9' then some rest else Option.none
  | [] => Option.none

/-- Hour alternative of the 24h validation regex in isValidTime,
src/views/ParentDashboard.tsx line 60: [01]?[0-9] or 2[0-3]. -/
def hour24Match : List Char → Option (List Char)
  | c1 :: c2 :: rest =>
    if (c1 = '0' ∨ c1 = '1') ∧ c2.isDigit then some rest
    else if c1 = '2' ∧ ('0' ≤ c2 ∧ c2 ≤ '3') then some rest
    else if c1.isDigit then some (c2 :: rest) else Option.none
  | [c1] => if c1.isDigit then some [] else Option.none
  | [] => Option.none

/-- The minutes part of both validation regexes: a colon then [0-5][0-9]. -/
def minuteTail : List Char → Option (List Char)
  | ':' :: m1 :: m2 :: rest =>
    if ('0' ≤ m1 ∧ m1 ≤ '5') ∧ m2.isDigit then some rest else Option.none
  | _ => Option.none

/-- The anchored AM or PM suffix. -/
def ampmEnd : List Char → Bool
  | ['A', 'M'] => true
  | ['P', 'M'] => true
  | _ => false

/-- The 12h regex of isValidTime: hour, minutes, an optional single
whitespace, then AM or PM at the end. -/
def match12h (l : List Char) : Bool :=
  match hour12Match l with
  | Option.none => false
  | some rest =>
    match minuteTail rest with
    | Option.none => false
    | some rest2 =>
      ampmEnd rest2 ||
        (match rest2 with
         | c :: rest3 => isWsC c && ampmEnd rest3
         | [] => false)

/-- The 24h regex of isValidTime: hour then minutes at the end. -/
def match24h (l : List Char) : Bool :=
  match hour24Match l with
  | Option.none => false
  | some rest =>
    match minuteTail rest with
    | some [] => true
    | _ => false

/-- Embedding of isValidTime, src/views/ParentDashboard.tsx lines 57 to 62:
trim and uppercase, then match either display format. -/
def isValidTime (s : String) : Bool :=
  let clean := toUpperChars (trimChars s.data)
  match12h clean || match24h clean

/-- Embedding of isValidDuration, src/views/ParentDashboard.tsx lines
64 to 67. -/
def isValidDuration (dur : String) : Bool :=
  match jsNumber dur.data with
  | Option.none => false
  | some n => 0 < n && n < 1440

/-- The editable form fields of the task modal: the edit flow starts from a
copy of the task (handleEditTaskRequest, src/views/ParentDashboard.tsx lines
182 to 191) and the form inputs overwrite only these fields. -/
structure TaskFormEdits where
  title : String
  description : String
  reward : Int
  time : String
  duration : Option String
  type : String
  emoji : String
deriving DecidableEq, Repr

/-- Overwrite the editable fields of the copied task with the form values;
status and startTime have no form input and are carried over unchanged. -/
def applyFormEdits (original : Task) (e : TaskFormEdits) : Task :=
  { original with
    title := e.title, description := e.description, reward := e.reward,
    time := e.time, duration := e.duration, type := e.type, emoji := e.emoji }

/-- Embedding of handleSaveTask, src/views/ParentDashboard.tsx lines 199 to
224, in the editing branch: validation guards, recurrence assembly, and the
saved task; none models an early return on validation failure. -/
def handleSaveTask (newTask : Task) (recurrenceFreq : RecurrenceFrequency)
    (recurrenceDays : List Nat) (recurrenceEndDate : String)
    (recurrenceDayOfMonth : Nat) (editingTaskId : String) : Option Task :=
  if trimChars newTask.title.data = [] then Option.none
  else if !(isValidTime newTask.time) then Option.none
  else if !(isValidDuration (jsStrOr newTask.duration "0")) then Option.none
  else
    let recurrence : Option TaskRecurrence :=
      if recurrenceFreq ≠ RecurrenceFrequency.none then
        some { frequency := recurrenceFreq,
               days := if recurrenceFreq = RecurrenceFrequency.weekly then recurrenceDays else [],
               dayOfMonth :=
                 if recurrenceFreq = RecurrenceFrequency.monthly then some recurrenceDayOfMonth
                 else Option.none,
               endDate := if recurrenceEndDate = "" then Option.none else some recurrenceEndDate }
      else Option.none
    some { newTask with recurrence := recurrence, id := editingTaskId }

end ParentDashboard

namespace AppState

/-- Embedding of preGenerateTaskAudio, src/unnamed/part_001 lines 27 to 51:
the speech service is passed in as a function; a field is overwritten only
when the service returns a nonempty payload.  Only audio fields change. -/
def preGenerateTaskAudio (task : Task) (speech : TaskStatus → Language → Option String) : Task :=
  let setF := fun (old : Option String) (st : TaskStatus) (lg : Language) =>
    match speech st lg with
    | some b => if b = "" then old else some b
    | Option.none => old
  { task with
    audio_pending_es := setF task.audio_pending_es TaskStatus.pending Language.es,
    audio_pending_en := setF task.audio_pending_en TaskStatus.pending Language.en,
    audio_active_es := setF task.audio_active_es TaskStatus.active Language.es,
    audio_active_en := setF task.audio_active_en TaskStatus.active Language.en,
    audio_done_es := setF task.audio_done_es TaskStatus.done Language.es,
    audio_done_en := setF task.audio_done_en TaskStatus.done Language.en }

/-- The in-memory list update inside onUpdateTask, src/unnamed/part_001
line 811: replace the task with the matching id under the matching child. -/
def onUpdateTaskLocal (children : List Child) (childId : String) (task : Task) : List Child :=
  children.map fun c =>
    if c.id == childId then
      { c with tasks := c.tasks.map fun t => if t.id == task.id then task else t }
    else c

/-- Embedding of the onUpdateTask handler, src/unnamed/part_001 lines 802
to 834 (network sync omitted): regenerate audio when the title or the
description changed, then replace the task in the matching child. -/
def onUpdateTask (children : List Child) (childId : String) (task : Task)
    (speech : TaskStatus → Language → Option String) : List Child :=
  let targetChild := children.find? (fun c => c.id == childId)
  let oldTask := targetChild.bind (fun c => c.tasks.find? (fun t => t.id == task.id))
  let needsNewAudio :=
    match oldTask with
    | Option.none => true
    | some o => o.title != task.title || o.description != task.description
  let taskToSave :=
    if needsNewAudio && targetChild.isSome then preGenerateTaskAudio task speech
    else task
  onUpdateTaskLocal children childId taskToSave

/-- The guardian edit operation end to end: handleEditTaskRequest copies the
task into the form, the form edits are applied, handleSaveTask validates and
builds the saved task, and onUpdateTask persists it into the children list. -/
def guardianEditTask (children : List Child) (childId : String) (original : Task)
    (e : ParentDashboard.TaskFormEdits) (recurrenceFreq : RecurrenceFrequency)
    (recurrenceDays : List Nat) (recurrenceEndDate : String) (recurrenceDayOfMonth : Nat)
    (speech : TaskStatus → Language → Option String) : Option (List Child) :=
  (ParentDashboard.handleSaveTask (ParentDashboard.applyFormEdits original e) recurrenceFreq
      recurrenceDays recurrenceEndDate recurrenceDayOfMonth original.id).map
    (fun saved => onUpdateTask children childId saved speech)

end AppState

namespace MigrationService

/-- Deterministic model of the remote store used by the migration: the set
of child primary keys present, plus append-only logs of every insert the
migration issued, used to count insertions. -/
structure Remote where
  childIds : List String
  childLog : List String
  taskLog : List String
  rewardLog : List String
deriving DecidableEq, Repr

/-- One loop iteration of migrateLocalStorageToSupabase,
src/services/migrationService.ts lines 47 to 134: select the child by
primary key; when present skip, otherwise insert the child and batch-insert
its tasks and rewards. -/
def migrateChild (r : Remote) (c : Child) : Remote :=
  if r.childIds.contains c.id then r
  else
    { childIds := c.id :: r.childIds,
      childLog := r.childLog ++ [c.id],
      taskLog := r.taskLog ++ c.tasks.map Task.id,
      rewardLog := r.rewardLog ++ c.rewards.map Reward.id }

/-- The children loop of the migration. -/
def migrateChildren (cs : List Child) (r : Remote) : Remote :=
  cs.foldl migrateChild r

/-- The persisted local state the migration touches: the legacy snapshot
under STORAGE_KEY and the boolean MIGRATION_FLAG. -/
structure InstallState where
  snapshot : Option (List Child)
  migratedFlag : Bool
deriving DecidableEq, Repr

/-- Embedding of migrateLocalStorageToSupabase,
src/services/migrationService.ts lines 22 to 146, error-free runs: with no
stored snapshot it returns true immediately (without setting the flag);
otherwise it migrates every child and then sets MIGRATION_FLAG. -/
def migrateLocalStorageToSupabase (st : InstallState) (r : Remote) :
    Bool × InstallState × Remote :=
  match st.snapshot with
  | Option.none => (true, st, r)
  | some cs => (true, { st with migratedFlag := true }, migrateChildren cs r)

/-- Embedding of the triggerMigration effect, src/unnamed/part_001 lines 246
to 270: the migration runs whenever a signed-in user with a family id is
present (and no sync is already running); the persisted migratedFlag is not
consulted anywhere in that condition. -/
def triggerMigration (hasUserAndFamily : Bool) (st : InstallState) (r : Remote) :
    Bool × InstallState × Remote :=
  if hasUserAndFamily then migrateLocalStorageToSupabase st r
  else (false, st, r)

/-- All task ids across the snapshot children, with multiplicity. -/
def allTaskIds (cs : List Child) : List String :=
  (cs.map (fun c => c.tasks.map Task.id)).flatten

/-- All reward ids across the snapshot children, with multiplicity. -/
def allRewardIds (cs : List Child) : List String :=
  (cs.map (fun c => c.rewards.map Reward.id)).flatten

end MigrationService

namespace SpecModel

/-- A calendar date, for the recurrence model. -/
structure CivilDate where
  year : Nat
  month : Nat
  day : Nat
deriving DecidableEq, Repr

/-- Month offsets of the Sakamoto day-of-week algorithm. -/
def monthOffset : Nat → Nat
  | 1 => 0
  | 2 => 3
  | 3 => 2
  | 4 => 5
  | 5 => 0
  | 6 => 3
  | 7 => 5
  | 8 => 1
  | 9 => 4
  | 10 => 6
  | 11 => 2
  | 12 => 4
  | _ => 0

/-- Day of week of a Gregorian date, 0 for Sunday, matching the JS
Date.prototype.getDay convention used by the daysOfWeek field comment in
src/types.ts line 15. -/
def dayOfWeek (d : CivilDate) : Nat :=
  let y := if d.month < 3 then d.year - 1 else d.year
  (y + y / 4 - y / 100 + y / 400 + monthOffset d.month + d.day) % 7

/-- Chronological order on calendar dates. -/
def dateLeB (a b : CivilDate) : Bool :=
  a.year < b.year ||
    (a.year = b.year && (a.month < b.month || (a.month = b.month && a.day ≤ b.day)))

/-- Parse an ISO yyyy-mm-dd date string, the format of the endDate field
produced by the date input in the task modal. -/
def parseIsoDate (s : String) : Option CivilDate :=
  match splitOnChar '-' s.data with
  | [y, m, d] =>
    match digitsToNat y, digitsToNat m, digitsToNat d with
    | some ys, some ms, some ds => some ⟨ys, ms, ds⟩
    | _, _, _ => Option.none
  | _ => Option.none

/-- Modelled from the spec: no Recurrence Expander exists under src (only
the TaskRecurrence data shape in src/types.ts); spec section 4.2 bounds
every occurrence by the endDate, inclusive, when one is set. -/
def withinEnd (rule : TaskRecurrence) (date : CivilDate) : Bool :=
  match rule.endDate with
  | Option.none => true
  | some es =>
    match parseIsoDate es with
    | Option.none => true
    | some ed => dateLeB date ed

/-- Modelled from the spec: the occurrence decision of the Recurrence
Expander, spec section 4.2 — none never occurs, daily occurs on every date,
weekly occurs when the day of week is a member of daysOfWeek, monthly occurs
when the day of month matches; all bounded by endDate inclusive. -/
def occursOn (rule : TaskRecurrence) (date : CivilDate) : Bool :=
  match rule.frequency with
  | RecurrenceFrequency.none => false
  | RecurrenceFrequency.daily => withinEnd rule date
  | RecurrenceFrequency.weekly => withinEnd rule date && rule.days.contains (dayOfWeek date)
  | RecurrenceFrequency.monthly => withinEnd rule date && rule.dayOfMonth == some date.day

end SpecModel

end KidsCalendar

namespace KidsCalendar

/-- Concrete reward used by witnesses. -/
def demoReward : Reward :=
  { id := "r1", title := "Ice cream", category := "Treats", cost := 30,
    image := "img", type := "treat" }

/-- Concrete pending task used by witnesses. -/
def demoTask : Task :=
  { id := "t1", title := "Brush teeth", description := "", reward := 5,
    time := "09:00 AM", duration := some "30", startTime := Option.none,
    type := "routine", status := TaskStatus.pending, emoji := "S",
    recurrence := Option.none,
    audio_pending_es := Option.none, audio_pending_en := Option.none,
    audio_active_es := Option.none, audio_active_en := Option.none,
    audio_done_es := Option.none, audio_done_en := Option.none }

/-- Concrete started task used by witnesses and counterexamples. -/
def demoTaskActive : Task :=
  { demoTask with id := "t2", status := TaskStatus.active, startTime := some 5 }

/-- Concrete child used by witnesses. -/
def demoChild : Child :=
  { id := "c1", name := "Ana", age := Option.none, level := 1, stars := 40,
    avatar := "a", active := true, rewards := [demoReward],
    tasks := [demoTask, demoTaskActive], loveLanguages := Option.none,
    redemptionHistory := some [] }

/-- Second concrete child used by witnesses. -/
def demoChild2 : Child :=
  { demoChild with id := "c2", name := "Ben", active := false, stars := 10 }

/-- Concrete children list used by witnesses. -/
def demoChildren : List Child := [demoChild, demoChild2]

/-- Duplicate of demoTask under another id: same time window. -/
def demoTaskB : Task := { demoTask with id := "t3" }

/-- Speech service stub returning no audio. -/
def demoSpeech : TaskStatus → Language → Option String := fun _ _ => Option.none

/-- Concrete form edits leaving title and description unchanged. -/
def demoEdits : ParentDashboard.TaskFormEdits :=
  { title := "Brush teeth", description := "", reward := 5, time := "09:00 AM",
    duration := some "30", type := "routine", emoji := "S" }

/-- Weekly Monday, Wednesday, Friday rule bounded by 2025-12-31. -/
def demoWeeklyRule : TaskRecurrence :=
  { frequency := RecurrenceFrequency.weekly, days := [1, 3, 5],
    dayOfMonth := Option.none, endDate := some "2025-12-31" }


end KidsCalendar

namespace KidsCalendar

theorem pad2_eq : ∀ n, n < 100 → pad2 n = [digitChar (n / 10), digitChar (n % 10)] := by decide

theorem digitChar_facts : ∀ k, k < 10 →
    isWsC (digitChar k) = false ∧ Char.toUpper (digitChar k) = digitChar k ∧
    digitChar k ≠ ':' ∧ digitChar k ≠ 'M' ∧ digitChar k ≠ 'A' ∧ digitChar k ≠ 'P' := by decide

theorem jsNumber_two : ∀ a, a < 10 → ∀ b, b < 10 →
    jsNumber [digitChar a, digitChar b] = some ((10 * a + b : Nat) : Int) := by decide

theorem parsePD_24 (h mm : Nat) (hh : h < 24) (hmm : mm < 60) :
    ParentDashboard.parseTimeToMinutes (String.mk (pad2 h ++ ':' :: pad2 mm)) =
      some ((60 * h + mm : Nat) : Int) := by
  obtain ⟨hw1, hu1, hc1, hm1, -, -⟩ := digitChar_facts (h / 10) (by omega)
  obtain ⟨hw2, hu2, hc2, hm2, -, -⟩ := digitChar_facts (h % 10) (by omega)
  obtain ⟨hw3, hu3, hc3, hm3, -, -⟩ := digitChar_facts (mm / 10) (by omega)
  obtain ⟨hw4, hu4, hc4, hm4, -, -⟩ := digitChar_facts (mm % 10) (by omega)
  obtain ⟨hg1, hg2, hg3⟩ :
      Char.toUpper ':' = ':' ∧ isWsC ':' = false ∧ (':' : Char) ≠ 'M' := by decide
  rw [pad2_eq h (by omega), pad2_eq mm (by omega)]
  simp only [List.cons_append, List.nil_append]
  rw [ParentDashboard.parseTimeToMinutes]
  rw [if_neg (by simp [String.ext_iff])]
  simp only [String.data, trimChars, toUpperChars, List.dropWhile, hw1, hw4]
  simp only [List.reverse_cons, List.reverse_nil, List.nil_append, List.cons_append,
    List.map_cons, List.map_nil]
  rw [hu1, hu2, hu3, hu4, hg1]
  have hA : containsPair 'A' 'M' [digitChar (h / 10), digitChar (h % 10), ':',
      digitChar (mm / 10), digitChar (mm % 10)] = false := by
    simp [containsPair, hm2, hm3, hm4, hg3]
  have hP : containsPair 'P' 'M' [digitChar (h / 10), digitChar (h % 10), ':',
      digitChar (mm / 10), digitChar (mm % 10)] = false := by
    simp [containsPair, hm2, hm3, hm4, hg3]
  rw [hA, hP]
  rw [if_neg (by simp)]
  have hs : splitOnChar ':' [digitChar (h / 10), digitChar (h % 10), ':',
      digitChar (mm / 10), digitChar (mm % 10)] =
      [[digitChar (h / 10), digitChar (h % 10)], [digitChar (mm / 10), digitChar (mm % 10)]] := by
    simp [splitOnChar, hc1, hc2, hc3, hc4]
  rw [hs]
  have e1 : ([[digitChar (h / 10), digitChar (h % 10)],
      [digitChar (mm / 10), digitChar (mm % 10)]] : List (List Char)).headD [] =
      [digitChar (h / 10), digitChar (h % 10)] := rfl
  have e2 : ([[digitChar (h / 10), digitChar (h % 10)],
      [digitChar (mm / 10), digitChar (mm % 10)]] : List (List Char)).get? 1 =
      some [digitChar (mm / 10), digitChar (mm % 10)] := rfl
  rw [e1, e2]
  have e3 : jsNumberFalsy (some [digitChar (mm / 10), digitChar (mm % 10)]) =
      jsNumber [digitChar (mm / 10), digitChar (mm % 10)] := rfl
  rw [e3]
  rw [jsNumber_two (h / 10) (by omega) (h % 10) (by omega),
    jsNumber_two (mm / 10) (by omega) (mm % 10) (by omega)]
  simp only [jorZero]
  congr 1
  push_cast
  omega

end KidsCalendar

namespace KidsCalendar

theorem parsePD_12 (h12 mm : Nat) (pm : Bool) (hlo : 1 ≤ h12) (hhi : h12 ≤ 12) (hmm : mm < 60) :
    ParentDashboard.parseTimeToMinutes (String.mk (pad2 h12 ++ ':' :: pad2 mm ++ ' ' ::
        (if pm then ['P', 'M'] else ['A', 'M']))) =
      some ((((if pm then (if h12 = 12 then 12 else h12 + 12)
          else (if h12 = 12 then 0 else h12)) * 60 + mm : Nat)) : Int) := by
  obtain ⟨hw1, hu1, hc1, hm1, ha1, hp1⟩ := digitChar_facts (h12 / 10) (by omega)
  obtain ⟨hw2, hu2, hc2, hm2, ha2, hp2⟩ := digitChar_facts (h12 % 10) (by omega)
  obtain ⟨hw3, hu3, hc3, hm3, ha3, hp3⟩ := digitChar_facts (mm / 10) (by omega)
  obtain ⟨hw4, hu4, hc4, hm4, ha4, hp4⟩ := digitChar_facts (mm % 10) (by omega)
  obtain ⟨hg1, hg2, hg3⟩ :
      Char.toUpper ':' = ':' ∧ isWsC ':' = false ∧ (':' : Char) ≠ 'M' := by decide
  rw [pad2_eq h12 (by omega), pad2_eq mm (by omega)]
  cases pm with
  | true =>
    simp only [if_true, List.cons_append, List.nil_append]
    rw [ParentDashboard.parseTimeToMinutes]
    rw [if_neg (by simp [String.ext_iff])]
    simp only [String.data, trimChars, toUpperChars, List.dropWhile, hw1]
    rw [(by decide : isWsC 'M' = false)]
    simp only [List.reverse_cons, List.reverse_nil, List.nil_append, List.cons_append,
      List.map_cons, List.map_nil]
    rw [hu1, hu2, hu3, hu4, hg1, (by decide : Char.toUpper ' ' = ' '),
      (by decide : Char.toUpper 'P' = 'P'), (by decide : Char.toUpper 'M' = 'M')]
    have hP : containsPair 'P' 'M' [digitChar (h12 / 10), digitChar (h12 % 10), ':',
        digitChar (mm / 10), digitChar (mm % 10), ' ', 'P', 'M'] = true := by
      simp [containsPair, hm2, hm3, hm4, hg3]
    rw [hP]
    rw [if_pos (by simp)]
    have hsw : splitWs [digitChar (h12 / 10), digitChar (h12 % 10), ':',
        digitChar (mm / 10), digitChar (mm % 10), ' ', 'P', 'M'] =
        [[digitChar (h12 / 10), digitChar (h12 % 10), ':',
          digitChar (mm / 10), digitChar (mm % 10)], ['P', 'M']] := by
      simp [splitWs, splitWsAux, hw1, hw2, hg2, hw3, hw4,
        (by decide : isWsC ' ' = true), (by decide : isWsC 'P' = false),
        (by decide : isWsC 'M' = false)]
    rw [hsw]
    have e0 : ([[digitChar (h12 / 10), digitChar (h12 % 10), ':',
        digitChar (mm / 10), digitChar (mm % 10)], ['P', 'M']] : List (List Char)).headD [] =
        [digitChar (h12 / 10), digitChar (h12 % 10), ':',
          digitChar (mm / 10), digitChar (mm % 10)] := rfl
    have e1 : ([[digitChar (h12 / 10), digitChar (h12 % 10), ':',
        digitChar (mm / 10), digitChar (mm % 10)], ['P', 'M']] : List (List Char)).get? 1 =
        some ['P', 'M'] := rfl
    rw [e0, e1]
    have hs : splitOnChar ':' [digitChar (h12 / 10), digitChar (h12 % 10), ':',
        digitChar (mm / 10), digitChar (mm % 10)] =
        [[digitChar (h12 / 10), digitChar (h12 % 10)],
          [digitChar (mm / 10), digitChar (mm % 10)]] := by
      simp [splitOnChar, hc1, hc2, hc3, hc4]
    rw [hs]
    have e2 : ([[digitChar (h12 / 10), digitChar (h12 % 10)],
        [digitChar (mm / 10), digitChar (mm % 10)]] : List (List Char)).headD [] =
        [digitChar (h12 / 10), digitChar (h12 % 10)] := rfl
    have e3 : ([[digitChar (h12 / 10), digitChar (h12 % 10)],
        [digitChar (mm / 10), digitChar (mm % 10)]] : List (List Char)).get? 1 =
        some [digitChar (mm / 10), digitChar (mm % 10)] := rfl
    rw [e2, e3]
    have e4 : jsNumberFalsy (some [digitChar (mm / 10), digitChar (mm % 10)]) =
        jsNumber [digitChar (mm / 10), digitChar (mm % 10)] := rfl
    rw [e4]
    rw [jsNumber_two (h12 / 10) (by omega) (h12 % 10) (by omega),
      jsNumber_two (mm / 10) (by omega) (mm % 10) (by omega)]
    rw [(by omega : 10 * (h12 / 10) + h12 % 10 = h12), (by omega : 10 * (mm / 10) + mm % 10 = mm)]
    have e5 : ∀ d, jsStrFalsy (some ['P', 'M']) d = ['P', 'M'] := fun d => rfl
    rw [e5]
    by_cases heq : h12 = 12
    · subst heq
      norm_num [jltB, jadd, jmulC, jorZero, (by decide : ¬(('P' : Char) = 'A'))]
    · have hlt : (h12 : Int) < 12 := by omega
      simp [jltB, jadd, jmulC, jorZero, hlt, heq]
  | false =>
    simp only [if_false, List.cons_append, List.nil_append]
    rw [ParentDashboard.parseTimeToMinutes]
    rw [if_neg (by simp [String.ext_iff])]
    simp only [String.data, trimChars, toUpperChars, List.dropWhile, hw1]
    rw [(by decide : isWsC 'M' = false)]
    simp only [List.reverse_cons, List.reverse_nil, List.nil_append, List.cons_append,
      List.map_cons, List.map_nil]
    rw [hu1, hu2, hu3, hu4, hg1, (by decide : Char.toUpper ' ' = ' '),
      (by decide : Char.toUpper 'A' = 'A'), (by decide : Char.toUpper 'M' = 'M')]
    have hA : containsPair 'A' 'M' [digitChar (h12 / 10), digitChar (h12 % 10), ':',
        digitChar (mm / 10), digitChar (mm % 10), ' ', 'A', 'M'] = true := by
      simp [containsPair, hm2, hm3, hm4, hg3]
    rw [hA]
    rw [if_pos (by simp)]
    have hsw : splitWs [digitChar (h12 / 10), digitChar (h12 % 10), ':',
        digitChar (mm / 10), digitChar (mm % 10), ' ', 'A', 'M'] =
        [[digitChar (h12 / 10), digitChar (h12 % 10), ':',
          digitChar (mm / 10), digitChar (mm % 10)], ['A', 'M']] := by
      simp [splitWs, splitWsAux, hw1, hw2, hg2, hw3, hw4,
        (by decide : isWsC ' ' = true), (by decide : isWsC 'A' = false),
        (by decide : isWsC 'M' = false)]
    rw [hsw]
    have e0 : ([[digitChar (h12 / 10), digitChar (h12 % 10), ':',
        digitChar (mm / 10), digitChar (mm % 10)], ['A', 'M']] : List (List Char)).headD [] =
        [digitChar (h12 / 10), digitChar (h12 % 10), ':',
          digitChar (mm / 10), digitChar (mm % 10)] := rfl
    have e1 : ([[digitChar (h12 / 10), digitChar (h12 % 10), ':',
        digitChar (mm / 10), digitChar (mm % 10)], ['A', 'M']] : List (List Char)).get? 1 =
        some ['A', 'M'] := rfl
    rw [e0, e1]
    have hs : splitOnChar ':' [digitChar (h12 / 10), digitChar (h12 % 10), ':',
        digitChar (mm / 10), digitChar (mm % 10)] =
        [[digitChar (h12 / 10), digitChar (h12 % 10)],
          [digitChar (mm / 10), digitChar (mm % 10)]] := by
      simp [splitOnChar, hc1, hc2, hc3, hc4]
    rw [hs]
    have e2 : ([[digitChar (h12 / 10), digitChar (h12 % 10)],
        [digitChar (mm / 10), digitChar (mm % 10)]] : List (List Char)).headD [] =
        [digitChar (h12 / 10), digitChar (h12 % 10)] := rfl
    have e3 : ([[digitChar (h12 / 10), digitChar (h12 % 10)],
        [digitChar (mm / 10), digitChar (mm % 10)]] : List (List Char)).get? 1 =
        some [digitChar (mm / 10), digitChar (mm % 10)] := rfl
    rw [e2, e3]
    have e4 : jsNumberFalsy (some [digitChar (mm / 10), digitChar (mm % 10)]) =
        jsNumber [digitChar (mm / 10), digitChar (mm % 10)] := rfl
    rw [e4]
    rw [jsNumber_two (h12 / 10) (by omega) (h12 % 10) (by omega),
      jsNumber_two (mm / 10) (by omega) (mm % 10) (by omega)]
    rw [(by omega : 10 * (h12 / 10) + h12 % 10 = h12), (by omega : 10 * (mm / 10) + mm % 10 = mm)]
    have e5 : ∀ d, jsStrFalsy (some ['A', 'M']) d = ['A', 'M'] := fun d => rfl
    rw [e5]
    by_cases heq : h12 = 12
    · subst heq
      norm_num [jltB, jadd, jmulC, jorZero, (by decide : ¬(('A' : Char) = 'P'))]
    · have hne : ¬((h12 : Int) = 12) := by omega
      simp [jltB, jadd, jmulC, jorZero, hne, heq]

end KidsCalendar

namespace KidsCalendar

theorem parseCP_24 (h mm : Nat) (hh : h < 24) (hmm : mm < 60) :
    ChildPortal.parseTimeToMinutes (String.mk (pad2 h ++ ':' :: pad2 mm)) =
      some ((60 * h + mm : Nat) : Int) := by
  obtain ⟨hw1, hu1, hc1, hm1, -, -⟩ := digitChar_facts (h / 10) (by omega)
  obtain ⟨hw2, hu2, hc2, hm2, -, -⟩ := digitChar_facts (h % 10) (by omega)
  obtain ⟨hw3, hu3, hc3, hm3, -, -⟩ := digitChar_facts (mm / 10) (by omega)
  obtain ⟨hw4, hu4, hc4, hm4, -, -⟩ := digitChar_facts (mm % 10) (by omega)
  obtain ⟨hg1, hg2, hg3⟩ :
      Char.toUpper ':' = ':' ∧ isWsC ':' = false ∧ (':' : Char) ≠ 'M' := by decide
  rw [pad2_eq h (by omega), pad2_eq mm (by omega)]
  simp only [List.cons_append, List.nil_append]
  rw [ChildPortal.parseTimeToMinutes]
  rw [if_neg (by simp [String.ext_iff])]
  simp only [String.data, trimChars, toUpperChars, List.dropWhile, hw1, hw4]
  simp only [List.reverse_cons, List.reverse_nil, List.nil_append, List.cons_append,
    List.map_cons, List.map_nil]
  rw [hu1, hu2, hu3, hu4, hg1]
  have hA : containsPair 'A' 'M' [digitChar (h / 10), digitChar (h % 10), ':',
      digitChar (mm / 10), digitChar (mm % 10)] = false := by
    simp [containsPair, hm2, hm3, hm4, hg3]
  have hP : containsPair 'P' 'M' [digitChar (h / 10), digitChar (h % 10), ':',
      digitChar (mm / 10), digitChar (mm % 10)] = false := by
    simp [containsPair, hm2, hm3, hm4, hg3]
  rw [hA, hP]
  rw [if_neg (by simp)]
  have hs : splitOnChar ':' [digitChar (h / 10), digitChar (h % 10), ':',
      digitChar (mm / 10), digitChar (mm % 10)] =
      [[digitChar (h / 10), digitChar (h % 10)], [digitChar (mm / 10), digitChar (mm % 10)]] := by
    simp [splitOnChar, hc1, hc2, hc3, hc4]
  rw [hs]
  have e1 : ([[digitChar (h / 10), digitChar (h % 10)],
      [digitChar (mm / 10), digitChar (mm % 10)]] : List (List Char)).headD [] =
      [digitChar (h / 10), digitChar (h % 10)] := rfl
  have e2 : ([[digitChar (h / 10), digitChar (h % 10)],
      [digitChar (mm / 10), digitChar (mm % 10)]] : List (List Char)).get? 1 =
      some [digitChar (mm / 10), digitChar (mm % 10)] := rfl
  rw [e1, e2]
  have e3 : jsNumberFalsy (some [digitChar (mm / 10), digitChar (mm % 10)]) =
      jsNumber [digitChar (mm / 10), digitChar (mm % 10)] := rfl
  rw [e3]
  rw [jsNumber_two (h / 10) (by omega) (h % 10) (by omega),
    jsNumber_two (mm / 10) (by omega) (mm % 10) (by omega)]
  simp only [jorZero]
  congr 1
  push_cast
  omega

theorem parseCP_12 (h12 mm : Nat) (pm : Bool) (hlo : 1 ≤ h12) (hhi : h12 ≤ 12) (hmm : mm < 60) :
    ChildPortal.parseTimeToMinutes (String.mk (pad2 h12 ++ ':' :: pad2 mm ++ ' ' ::
        (if pm then ['P', 'M'] else ['A', 'M']))) =
      some ((((if pm then (if h12 = 12 then 12 else h12 + 12)
          else (if h12 = 12 then 0 else h12)) * 60 + mm : Nat)) : Int) := by
  obtain ⟨hw1, hu1, hc1, hm1, ha1, hp1⟩ := digitChar_facts (h12 / 10) (by omega)
  obtain ⟨hw2, hu2, hc2, hm2, ha2, hp2⟩ := digitChar_facts (h12 % 10) (by omega)
  obtain ⟨hw3, hu3, hc3, hm3, ha3, hp3⟩ := digitChar_facts (mm / 10) (by omega)
  obtain ⟨hw4, hu4, hc4, hm4, ha4, hp4⟩ := digitChar_facts (mm % 10) (by omega)
  obtain ⟨hg1, hg2, hg3⟩ :
      Char.toUpper ':' = ':' ∧ isWsC ':' = false ∧ (':' : Char) ≠ 'M' := by decide
  rw [pad2_eq h12 (by omega), pad2_eq mm (by omega)]
  cases pm with
  | true =>
    simp only [if_true, List.cons_append, List.nil_append]
    rw [ChildPortal.parseTimeToMinutes]
    rw [if_neg (by simp [String.ext_iff])]
    simp only [String.data, trimChars, toUpperChars, List.dropWhile, hw1]
    rw [(by decide : isWsC 'M' = false)]
    simp only [List.reverse_cons, List.reverse_nil, List.nil_append, List.cons_append,
      List.map_cons, List.map_nil]
    rw [hu1, hu2, hu3, hu4, hg1, (by decide : Char.toUpper ' ' = ' '),
      (by decide : Char.toUpper 'P' = 'P'), (by decide : Char.toUpper 'M' = 'M')]
    have hP : containsPair 'P' 'M' [digitChar (h12 / 10), digitChar (h12 % 10), ':',
        digitChar (mm / 10), digitChar (mm % 10), ' ', 'P', 'M'] = true := by
      simp [containsPair, hm2, hm3, hm4, hg3]
    rw [hP]
    rw [if_pos (by simp)]
    have hsw : splitWs [digitChar (h12 / 10), digitChar (h12 % 10), ':',
        digitChar (mm / 10), digitChar (mm % 10), ' ', 'P', 'M'] =
        [[digitChar (h12 / 10), digitChar (h12 % 10), ':',
          digitChar (mm / 10), digitChar (mm % 10)], ['P', 'M']] := by
      simp [splitWs, splitWsAux, hw1, hw2, hg2, hw3, hw4,
        (by decide : isWsC ' ' = true), (by decide : isWsC 'P' = false),
        (by decide : isWsC 'M' = false)]
    rw [hsw]
    have e0 : ([[digitChar (h12 / 10), digitChar (h12 % 10), ':',
        digitChar (mm / 10), digitChar (mm % 10)], ['P', 'M']] : List (List Char)).headD [] =
        [digitChar (h12 / 10), digitChar (h12 % 10), ':',
          digitChar (mm / 10), digitChar (mm % 10)] := rfl
    have e1 : ([[digitChar (h12 / 10), digitChar (h12 % 10), ':',
        digitChar (mm / 10), digitChar (mm % 10)], ['P', 'M']] : List (List Char)).get? 1 =
        some ['P', 'M'] := rfl
    rw [e0, e1]
    have hs : splitOnChar ':' [digitChar (h12 / 10), digitChar (h12 % 10), ':',
        digitChar (mm / 10), digitChar (mm % 10)] =
        [[digitChar (h12 / 10), digitChar (h12 % 10)],
          [digitChar (mm / 10), digitChar (mm % 10)]] := by
      simp [splitOnChar, hc1, hc2, hc3, hc4]
    rw [hs]
    have e2 : ([[digitChar (h12 / 10), digitChar (h12 % 10)],
        [digitChar (mm / 10), digitChar (mm % 10)]] : List (List Char)).headD [] =
        [digitChar (h12 / 10), digitChar (h12 % 10)] := rfl
    have e3 : ([[digitChar (h12 / 10), digitChar (h12 % 10)],
        [digitChar (mm / 10), digitChar (mm % 10)]] : List (List Char)).get? 1 =
        some [digitChar (mm / 10), digitChar (mm % 10)] := rfl
    rw [e2, e3]
    have e4 : jsNumberFalsy (some [digitChar (mm / 10), digitChar (mm % 10)]) =
        jsNumber [digitChar (mm / 10), digitChar (mm % 10)] := rfl
    rw [e4]
    rw [jsNumber_two (h12 / 10) (by omega) (h12 % 10) (by omega),
      jsNumber_two (mm / 10) (by omega) (mm % 10) (by omega)]
    rw [(by omega : 10 * (h12 / 10) + h12 % 10 = h12),
      (by omega : 10 * (mm / 10) + mm % 10 = mm)]
    by_cases heq : h12 = 12
    · subst heq
      norm_num [jltB, jadd, jmulC, jorZero, (by decide : ¬(('P' : Char) = 'A'))]
    · have hlt : (h12 : Int) < 12 := by omega
      simp [jltB, jadd, jmulC, jorZero, hlt, heq]
  | false =>
    simp only [if_false, List.cons_append, List.nil_append]
    rw [ChildPortal.parseTimeToMinutes]
    rw [if_neg (by simp [String.ext_iff])]
    simp only [String.data, trimChars, toUpperChars, List.dropWhile, hw1]
    rw [(by decide : isWsC 'M' = false)]
    simp only [List.reverse_cons, List.reverse_nil, List.nil_append, List.cons_append,
      List.map_cons, List.map_nil]
    rw [hu1, hu2, hu3, hu4, hg1, (by decide : Char.toUpper ' ' = ' '),
      (by decide : Char.toUpper 'A' = 'A'), (by decide : Char.toUpper 'M' = 'M')]
    have hA : containsPair 'A' 'M' [digitChar (h12 / 10), digitChar (h12 % 10), ':',
        digitChar (mm / 10), digitChar (mm % 10), ' ', 'A', 'M'] = true := by
      simp [containsPair, hm2, hm3, hm4, hg3]
    rw [hA]
    rw [if_pos (by simp)]
    have hsw : splitWs [digitChar (h12 / 10), digitChar (h12 % 10), ':',
        digitChar (mm / 10), digitChar (mm % 10), ' ', 'A', 'M'] =
        [[digitChar (h12 / 10), digitChar (h12 % 10), ':',
          digitChar (mm / 10), digitChar (mm % 10)], ['A', 'M']] := by
      simp [splitWs, splitWsAux, hw1, hw2, hg2, hw3, hw4,
        (by decide : isWsC ' ' = true), (by decide : isWsC 'A' = false),
        (by decide : isWsC 'M' = false)]
    rw [hsw]
    have e0 : ([[digitChar (h12 / 10), digitChar (h12 % 10), ':',
        digitChar (mm / 10), digitChar (mm % 10)], ['A', 'M']] : List (List Char)).headD [] =
        [digitChar (h12 / 10), digitChar (h12 % 10), ':',
          digitChar (mm / 10), digitChar (mm % 10)] := rfl
    have e1 : ([[digitChar (h12 / 10), digitChar (h12 % 10), ':',
        digitChar (mm / 10), digitChar (mm % 10)], ['A', 'M']] : List (List Char)).get? 1 =
        some ['A', 'M'] := rfl
    rw [e0, e1]
    have hs : splitOnChar ':' [digitChar (h12 / 10), digitChar (h12 % 10), ':',
        digitChar (mm / 10), digitChar (mm % 10)] =
        [[digitChar (h12 / 10), digitChar (h12 % 10)],
          [digitChar (mm / 10), digitChar (mm % 10)]] := by
      simp [splitOnChar, hc1, hc2, hc3, hc4]
    rw [hs]
    have e2 : ([[digitChar (h12 / 10), digitChar (h12 % 10)],
        [digitChar (mm / 10), digitChar (mm % 10)]] : List (List Char)).headD [] =
        [digitChar (h12 / 10), digitChar (h12 % 10)] := rfl
    have e3 : ([[digitChar (h12 / 10), digitChar (h12 % 10)],
        [digitChar (mm / 10), digitChar (mm % 10)]] : List (List Char)).get? 1 =
        some [digitChar (mm / 10), digitChar (mm % 10)] := rfl
    rw [e2, e3]
    have e4 : jsNumberFalsy (some [digitChar (mm / 10), digitChar (mm % 10)]) =
        jsNumber [digitChar (mm / 10), digitChar (mm % 10)] := rfl
    rw [e4]
    rw [jsNumber_two (h12 / 10) (by omega) (h12 % 10) (by omega),
      jsNumber_two (mm / 10) (by omega) (mm % 10) (by omega)]
    rw [(by omega : 10 * (h12 / 10) + h12 % 10 = h12),
      (by omega : 10 * (mm / 10) + mm % 10 = mm)]
    by_cases heq : h12 = 12
    · subst heq
      norm_num [jltB, jadd, jmulC, jorZero, (by decide : ¬(('A' : Char) = 'P'))]
    · have hne : ¬((h12 : Int) = 12) := by omega
      simp [jltB, jadd, jmulC, jorZero, hne, heq]

/-- Round trip for the ParentDashboard pair: parsing the formatted string
recovers the minute value, for every minute of the day and both modes. -/
theorem roundtripPD (m : Nat) (hm : m < 1440) (fmt : TimeFormat) :
    ParentDashboard.parseTimeToMinutes (ParentDashboard.minutesToInternalString m fmt) =
      some (m : Int) := by
  cases fmt with
  | h24 =>
    rw [ParentDashboard.minutesToInternalString]
    rw [if_pos rfl]
    rw [(by omega : m / 60 % 24 = m / 60)]
    rw [parsePD_24 (m / 60) (m % 60) (by omega) (by omega)]
    congr 1
    omega
  | h12 =>
    rw [ParentDashboard.minutesToInternalString]
    rw [if_neg (by decide)]
    norm_num
    rw [(by omega : m / 60 % 24 = m / 60)]
    by_cases hpm : 12 ≤ m / 60
    · rw [if_pos hpm]
      by_cases hz : m / 60 % 12 = 0
      · rw [if_pos hz]
        rw [(show (['P', 'M'] : List Char) = if true then ['P', 'M'] else ['A', 'M'] from rfl)]
        have h' := parsePD_12 12 (m % 60) true (by omega) (by omega) (by omega)
        simp only [List.cons_append, List.append_assoc] at h' ⊢
        rw [h']
        congr 1
        norm_num
        try omega
      · rw [if_neg hz]
        rw [(show (['P', 'M'] : List Char) = if true then ['P', 'M'] else ['A', 'M'] from rfl)]
        have h' := parsePD_12 (m / 60 % 12) (m % 60) true (by omega) (by omega) (by omega)
        simp only [List.cons_append, List.append_assoc] at h' ⊢
        rw [h']
        have hne12 : ¬(m / 60 % 12 = 12) := by omega
        congr 1
        norm_num [hne12]
        try omega
    · rw [if_neg hpm]
      by_cases hz : m / 60 % 12 = 0
      · rw [if_pos hz]
        rw [(show (['A', 'M'] : List Char) = if false then ['P', 'M'] else ['A', 'M'] from rfl)]
        have h' := parsePD_12 12 (m % 60) false (by omega) (by omega) (by omega)
        simp only [List.cons_append, List.append_assoc] at h' ⊢
        rw [h']
        congr 1
        norm_num
        try omega
      · rw [if_neg hz]
        rw [(show (['A', 'M'] : List Char) = if false then ['P', 'M'] else ['A', 'M'] from rfl)]
        have h' := parsePD_12 (m / 60 % 12) (m % 60) false (by omega) (by omega) (by omega)
        simp only [List.cons_append, List.append_assoc] at h' ⊢
        rw [h']
        have hne12 : ¬(m / 60 % 12 = 12) := by omega
        congr 1
        norm_num [hne12]
        try omega

/-- Round trip for the ChildPortal pair: parsing the formatted string
recovers the minute value, for every minute of the day and both modes. -/
theorem roundtripCP (m : Nat) (hm : m < 1440) (fmt : TimeFormat) :
    ChildPortal.parseTimeToMinutes (ChildPortal.displayTimeFromMinutes m fmt) =
      some (m : Int) := by
  cases fmt with
  | h24 =>
    rw [ChildPortal.displayTimeFromMinutes]
    rw [if_pos rfl]
    rw [parseCP_24 (m / 60) (m % 60) (by omega) (by omega)]
    congr 1
    omega
  | h12 =>
    rw [ChildPortal.displayTimeFromMinutes]
    rw [if_neg (by decide)]
    norm_num
    by_cases hpm : 12 ≤ m / 60
    · rw [if_pos hpm]
      by_cases hz : m / 60 % 12 = 0
      · rw [if_pos hz]
        rw [(show (['P', 'M'] : List Char) = if true then ['P', 'M'] else ['A', 'M'] from rfl)]
        have h' := parseCP_12 12 (m % 60) true (by omega) (by omega) (by omega)
        simp only [List.cons_append, List.append_assoc] at h' ⊢
        rw [h']
        congr 1
        norm_num
        try omega
      · rw [if_neg hz]
        rw [(show (['P', 'M'] : List Char) = if true then ['P', 'M'] else ['A', 'M'] from rfl)]
        have h' := parseCP_12 (m / 60 % 12) (m % 60) true (by omega) (by omega) (by omega)
        simp only [List.cons_append, List.append_assoc] at h' ⊢
        rw [h']
        have hne12 : ¬(m / 60 % 12 = 12) := by omega
        congr 1
        norm_num [hne12]
        try omega
    · rw [if_neg hpm]
      by_cases hz : m / 60 % 12 = 0
      · rw [if_pos hz]
        rw [(show (['A', 'M'] : List Char) = if false then ['P', 'M'] else ['A', 'M'] from rfl)]
        have h' := parseCP_12 12 (m % 60) false (by omega) (by omega) (by omega)
        simp only [List.cons_append, List.append_assoc] at h' ⊢
        rw [h']
        congr 1
        norm_num
        try omega
      · rw [if_neg hz]
        rw [(show (['A', 'M'] : List Char) = if false then ['P', 'M'] else ['A', 'M'] from rfl)]
        have h' := parseCP_12 (m / 60 % 12) (m % 60) false (by omega) (by omega) (by omega)
        simp only [List.cons_append, List.append_assoc] at h' ⊢
        rw [h']
        have hne12 : ¬(m / 60 % 12 = 12) := by omega
        congr 1
        norm_num [hne12]
        try omega

end KidsCalendar

namespace KidsCalendar

theorem zip_map_snd {α : Type} (f : α → α) :
    ∀ (l : List α) (p : α × α), p ∈ l.zip (l.map f) → p.2 = f p.1 := by
  intro l
  induction l with
  | nil => intro p hp; simp [List.zip] at hp
  | cons a t ih =>
    intro p hp
    rw [List.map_cons, List.zip_cons_cons] at hp
    rcases List.mem_cons.mp hp with h | h
    · rw [h]
    · exact ih p h

/-- C10: switchActiveChild makes a child active exactly when its id matches
the given id and changes nothing else; any two active children in the result
share the id, under duplicate-free ids at most one child is active, and when
no child carries the id no child remains active. -/
theorem claim_C10_switchActiveChild (children : List Child) (id : String) :
    (AppState.switchActiveChild children id).length = children.length ∧
    (∀ p ∈ children.zip (AppState.switchActiveChild children id),
      p.2.active = (p.1.id == id) ∧ p.2.id = p.1.id ∧ p.2.name = p.1.name ∧
      p.2.age = p.1.age ∧ p.2.level = p.1.level ∧ p.2.stars = p.1.stars ∧
      p.2.avatar = p.1.avatar ∧ p.2.rewards = p.1.rewards ∧ p.2.tasks = p.1.tasks ∧
      p.2.loveLanguages = p.1.loveLanguages ∧
      p.2.redemptionHistory = p.1.redemptionHistory) ∧
    (∀ c1 ∈ AppState.switchActiveChild children id,
      ∀ c2 ∈ AppState.switchActiveChild children id,
      c1.active = true → c2.active = true → c1.id = c2.id) ∧
    ((∀ c ∈ children, c.id ≠ id) →
      ∀ c ∈ AppState.switchActiveChild children id, c.active = false) ∧
    ((children.map Child.id).Nodup →
      ((AppState.switchActiveChild children id).filter (fun c => c.active)).length ≤ 1) := by
  constructor
  · rw [AppState.switchActiveChild]
    exact List.length_map children _
  constructor
  · intro p hp
    rw [zip_map_snd _ children p hp]
    exact ⟨rfl, rfl, rfl, rfl, rfl, rfl, rfl, rfl, rfl, rfl, rfl⟩
  constructor
  · intro c1 h1 c2 h2 ha1 ha2
    rw [AppState.switchActiveChild] at h1 h2
    obtain ⟨a1, -, rfl⟩ := List.mem_map.mp h1
    obtain ⟨a2, -, rfl⟩ := List.mem_map.mp h2
    simp only [beq_iff_eq] at ha1 ha2
    show a1.id = a2.id
    rw [ha1, ha2]
  constructor
  · intro hnone c hc
    rw [AppState.switchActiveChild] at hc
    obtain ⟨a, ha, rfl⟩ := List.mem_map.mp hc
    simp [hnone a ha]
  · intro hnd
    rw [AppState.switchActiveChild]
    have key : ∀ cs : List Child, (cs.map Child.id).Nodup →
        ((cs.map (fun c => { c with active := c.id == id })).filter
          (fun c => c.active)).length ≤ 1 := by
      intro cs
      induction cs with
      | nil => intro _; simp
      | cons a t ih =>
        intro hnd2
        rw [List.map_cons, List.nodup_cons] at hnd2
        rw [List.map_cons]
        by_cases hid : a.id = id
        · rw [List.filter_cons_of_pos (by simp [hid])]
          have ht : (t.map (fun c => { c with active := c.id == id })).filter
              (fun c => c.active) = [] := by
            rw [List.filter_eq_nil_iff]
            intro x hx
            obtain ⟨b, hb, rfl⟩ := List.mem_map.mp hx
            have hbne : b.id ≠ id := fun hbe =>
              hnd2.1 (by rw [hid, ← hbe]; exact List.mem_map_of_mem Child.id hb)
            simp [hbne]
          rw [ht]
          simp
        · rw [List.filter_cons_of_neg (by simp [hid])]
          exact ih hnd2.2
    exact key children hnd

/-- C10 witness: on the concrete two-child family, switching to an id held
by no child leaves the first result child inactive. -/
theorem claim_C10_witness :
    ((AppState.switchActiveChild demoChildren "zzz").headD demoChild).active = false := by
  have h := (claim_C10_switchActiveChild demoChildren "zzz").2.2.2.1 (by decide)
  exact h ((AppState.switchActiveChild demoChildren "zzz").headD demoChild) (by decide)

end KidsCalendar

namespace KidsCalendar

/-- C3: updateTaskStatus changes only the targeted task of the targeted
child, and of that task only the status and startTime fields; the star
balance of every child, every other task, every other field of the child and
every other child are unchanged. -/
theorem claim_C3_updateTaskStatus (children : List Child) (childId taskId : String)
    (status : TaskStatus) (now : Int) :
    (AppState.updateTaskStatus children childId taskId status now).length = children.length ∧
    ∀ p ∈ children.zip (AppState.updateTaskStatus children childId taskId status now),
      (p.1.id ≠ childId → p.2 = p.1) ∧
      (p.1.id = childId →
        p.2.id = p.1.id ∧ p.2.name = p.1.name ∧ p.2.age = p.1.age ∧
        p.2.level = p.1.level ∧ p.2.stars = p.1.stars ∧ p.2.avatar = p.1.avatar ∧
        p.2.active = p.1.active ∧ p.2.rewards = p.1.rewards ∧
        p.2.loveLanguages = p.1.loveLanguages ∧
        p.2.redemptionHistory = p.1.redemptionHistory ∧
        p.2.tasks.length = p.1.tasks.length ∧
        ∀ q ∈ p.1.tasks.zip p.2.tasks,
          (q.1.id ≠ taskId → q.2 = q.1) ∧
          (q.1.id = taskId →
            q.2.status = status ∧
            q.2.startTime = (if status = TaskStatus.active then some now else q.1.startTime) ∧
            q.2.id = q.1.id ∧ q.2.title = q.1.title ∧ q.2.description = q.1.description ∧
            q.2.reward = q.1.reward ∧ q.2.time = q.1.time ∧ q.2.duration = q.1.duration ∧
            q.2.type = q.1.type ∧ q.2.emoji = q.1.emoji ∧ q.2.recurrence = q.1.recurrence ∧
            q.2.audio_pending_es = q.1.audio_pending_es ∧
            q.2.audio_pending_en = q.1.audio_pending_en ∧
            q.2.audio_active_es = q.1.audio_active_es ∧
            q.2.audio_active_en = q.1.audio_active_en ∧
            q.2.audio_done_es = q.1.audio_done_es ∧
            q.2.audio_done_en = q.1.audio_done_en)) := by
  constructor
  · rw [AppState.updateTaskStatus]
    exact List.length_map children _
  intro p hp
  have h2 := zip_map_snd _ children p hp
  constructor
  · intro hne
    rw [h2]
    simp [hne]
  · intro heq
    rw [h2]
    simp only [heq, beq_self_eq_true, if_true, List.length_map, true_and, and_true]
    intro q hq
    have h3 := zip_map_snd _ p.1.tasks q hq
    constructor
    · intro hqne
      rw [h3]
      simp [hqne]
    · intro hqeq
      rw [h3]
      simp only [hqeq, beq_self_eq_true, if_true, true_and, and_true]
      by_cases hs : status = TaskStatus.active
      · simp [hs]
      · simp [hs]

/-- C3 witness: completing the concrete pending task leaves the star balance
and name of the owning child unchanged. -/
theorem claim_C3_witness :
    ((AppState.updateTaskStatus demoChildren "c1" "t1" TaskStatus.done 99).headD
        demoChild).stars = demoChild.stars ∧
    ((AppState.updateTaskStatus demoChildren "c1" "t1" TaskStatus.done 99).headD
        demoChild).name = demoChild.name := by
  obtain ⟨-, h2⟩ := claim_C3_updateTaskStatus demoChildren "c1" "t1" TaskStatus.done 99
  have hp := h2 (demoChild, (AppState.updateTaskStatus demoChildren "c1" "t1"
    TaskStatus.done 99).headD demoChild) (by decide)
  obtain ⟨-, hm⟩ := hp
  obtain ⟨-, hname, -, -, hstars, -⟩ := hm (by decide)
  exact ⟨hstars, hname⟩

/-- C1: redeemReward fails and leaves all state unchanged when the found
child has fewer stars than the cost; otherwise it succeeds, decrements that
child by exactly the cost, prepends exactly one redemption record carrying
the reward id, title, cost and the current timestamp, and leaves every field
of every other child unchanged. -/
theorem claim_C1_redeemReward (children : List Child) (childId : String) (reward : Reward)
    (note : Option String) (now : Int) (c : Child)
    (hfind : children.find? (fun ch => ch.id == childId) = some c) :
    (c.stars < reward.cost →
      AppState.redeemReward children childId reward note now = (false, children)) ∧
    (reward.cost ≤ c.stars →
      (AppState.redeemReward children childId reward note now).1 = true ∧
      (AppState.redeemReward children childId reward note now).2.length = children.length ∧
      ∀ p ∈ children.zip (AppState.redeemReward children childId reward note now).2,
        (p.1.id ≠ childId → p.2 = p.1) ∧
        (p.1.id = childId →
          p.2.stars = p.1.stars - reward.cost ∧
          p.2.redemptionHistory = some
            ({ id := "redemption_" ++ toString now, rewardId := reward.id,
               rewardTitle := reward.title, cost := reward.cost,
               timestamp := now, note := note } :: p.1.redemptionHistory.getD []) ∧
          p.2.id = p.1.id ∧ p.2.name = p.1.name ∧ p.2.age = p.1.age ∧
          p.2.level = p.1.level ∧ p.2.avatar = p.1.avatar ∧ p.2.active = p.1.active ∧
          p.2.rewards = p.1.rewards ∧ p.2.tasks = p.1.tasks ∧
          p.2.loveLanguages = p.1.loveLanguages)) := by
  constructor
  · intro hlt
    simp only [AppState.redeemReward, hfind]
    rw [if_pos hlt]
  · intro hge
    simp only [AppState.redeemReward, hfind]
    rw [if_neg (not_lt.mpr hge)]
    refine ⟨rfl, List.length_map children _, ?_⟩
    intro p hp
    have h2 := zip_map_snd _ children p hp
    constructor
    · intro hne
      rw [h2]
      simp [hne]
    · intro heq
      rw [h2]
      simp only [heq, beq_self_eq_true, if_true, true_and, and_true]

/-- C1 witness: on the concrete family, redeeming a cost-30 reward against a
40-star balance succeeds, sets the balance to 10 and prepends one record. -/
theorem claim_C1_witness :
    (AppState.redeemReward demoChildren "c1" demoReward Option.none 1000).1 = true ∧
    ((AppState.redeemReward demoChildren "c1" demoReward Option.none 1000).2.headD
        demoChild).stars = 10 := by
  have h := claim_C1_redeemReward demoChildren "c1" demoReward Option.none 1000 demoChild
    (by decide)
  obtain ⟨hr, hlen, hpt⟩ := h.2 (by decide)
  have hp := hpt (demoChild, (AppState.redeemReward demoChildren "c1" demoReward
    Option.none 1000).2.headD demoChild) (by decide)
  obtain ⟨hstars, -⟩ := hp.2 (by decide)
  exact ⟨hr, by rw [hstars]; decide⟩

end KidsCalendar

namespace KidsCalendar

/-- C2: for every minute of the day and both display modes, parsing the
string produced by the formatter returns the same minute, for the
ParentDashboard pair and for the ChildPortal displayTime variant. -/
theorem claim_C2_parse_format_roundtrip (m : Nat) (hm : m < 1440) (fmt : TimeFormat) :
    ParentDashboard.parseTimeToMinutes (ParentDashboard.minutesToInternalString m fmt) =
      some (m : Int) ∧
    ChildPortal.parseTimeToMinutes (ChildPortal.displayTimeFromMinutes m fmt) =
      some (m : Int) :=
  ⟨roundtripPD m hm fmt, roundtripCP m hm fmt⟩

/-- C2 witness: the round trip at minute 870 in 12h mode. -/
theorem claim_C2_witness :
    ParentDashboard.parseTimeToMinutes
        (ParentDashboard.minutesToInternalString 870 TimeFormat.h12) = some (870 : Int) ∧
    ChildPortal.parseTimeToMinutes
        (ChildPortal.displayTimeFromMinutes 870 TimeFormat.h12) = some (870 : Int) :=
  claim_C2_parse_format_roundtrip 870 (by omega) TimeFormat.h12

/-- C7 counterexample: the parsers do not clamp the hour field, so the
string 25:00 parses to 1500, outside the range 0 to 1439; the claim fails
as stated over all input strings. -/
theorem claim_C7_cex :
    ParentDashboard.parseTimeToMinutes "25:00" = some 1500 ∧
    ChildPortal.parseTimeToMinutes "25:00" = some 1500 ∧
    ¬ (∀ s : String, ∃ n : Int,
        ParentDashboard.parseTimeToMinutes s = some n ∧ 0 ≤ n ∧ n ≤ 1439) := by
  refine ⟨by decide, by decide, ?_⟩
  intro hall
  obtain ⟨n, hn, -, hle⟩ := hall "25:00"
  rw [(by decide : ParentDashboard.parseTimeToMinutes "25:00" = some 1500)] at hn
  have : (1500 : Int) = n := Option.some.inj hn
  omega

/-- C7 amended: both parsers are total and never raise; the empty (falsy)
input parses to 0; and every string the system itself produces through its
formatters parses to a value in the range 0 to 1439.  Arbitrary inputs are
not clamped to that range. -/
theorem claim_C7_amended (m : Nat) (hm : m < 1440) (fmt : TimeFormat) :
    (∃ n : Int, ParentDashboard.parseTimeToMinutes
        (ParentDashboard.minutesToInternalString m fmt) = some n ∧ 0 ≤ n ∧ n ≤ 1439) ∧
    (∃ n : Int, ChildPortal.parseTimeToMinutes
        (ChildPortal.displayTimeFromMinutes m fmt) = some n ∧ 0 ≤ n ∧ n ≤ 1439) ∧
    ParentDashboard.parseTimeToMinutes "" = some 0 ∧
    ChildPortal.parseTimeToMinutes "" = some 0 :=
  ⟨⟨m, roundtripPD m hm fmt, by omega, by omega⟩,
   ⟨m, roundtripCP m hm fmt, by omega, by omega⟩, by decide, by decide⟩

/-- C7 witness: the amended claim at minute 1439 in 24h mode. -/
theorem claim_C7_witness :
    (∃ n : Int, ParentDashboard.parseTimeToMinutes
        (ParentDashboard.minutesToInternalString 1439 TimeFormat.h24) = some n ∧
        0 ≤ n ∧ n ≤ 1439) ∧
    (∃ n : Int, ChildPortal.parseTimeToMinutes
        (ChildPortal.displayTimeFromMinutes 1439 TimeFormat.h24) = some n ∧
        0 ≤ n ∧ n ≤ 1439) ∧
    ParentDashboard.parseTimeToMinutes "" = some 0 ∧
    ChildPortal.parseTimeToMinutes "" = some 0 :=
  claim_C7_amended 1439 (by omega) TimeFormat.h24

/-- C9 counterexample: the currently-due projection returns only the first
due task, so with two tasks sharing the same window the second is due but
never selected; the biconditional of the claim fails. -/
theorem claim_C9_cex :
    ¬ (∀ (tasks : List Task) (now : Int) (t : Task), t ∈ tasks →
        (ChildPortal.getCurrentActiveTaskFromSchedule tasks now = some t ↔
          ChildPortal.taskDue now t = true)) := by
  intro hall
  have h := (hall [demoTask, demoTaskB] 545 demoTaskB (by decide)).mpr (by decide)
  rw [(by decide : ChildPortal.getCurrentActiveTaskFromSchedule
    [demoTask, demoTaskB] 545 = some demoTask)] at h
  exact absurd (Option.some.inj h) (by decide)

/-- C9 amended: the projection selects the first task in list order whose
half-open window contains the current minute; any selected task is due and
in the list; nothing is selected exactly when no task is due; and the
selection is computed independently of every status field. -/
theorem claim_C9_currently_due (tasks : List Task) (now : Int) :
    (∀ t, ChildPortal.getCurrentActiveTaskFromSchedule tasks now = some t →
      ChildPortal.taskDue now t = true ∧ t ∈ tasks) ∧
    (ChildPortal.getCurrentActiveTaskFromSchedule tasks now = Option.none ↔
      ∀ t ∈ tasks, ChildPortal.taskDue now t = false) ∧
    (∀ l1 t l2, tasks = l1 ++ t :: l2 →
      (∀ u ∈ l1, ChildPortal.taskDue now u = false) →
      ChildPortal.taskDue now t = true →
      ChildPortal.getCurrentActiveTaskFromSchedule tasks now = some t) ∧
    (∀ f : Task → TaskStatus,
      ChildPortal.getCurrentActiveTaskFromSchedule
          (tasks.map (fun t => { t with status := f t })) now =
        (ChildPortal.getCurrentActiveTaskFromSchedule tasks now).map
          (fun t => { t with status := f t })) := by
  refine ⟨?_, ?_, ?_, ?_⟩
  · intro t ht
    rw [ChildPortal.getCurrentActiveTaskFromSchedule] at ht
    exact ⟨List.find?_some ht, List.mem_of_find?_eq_some ht⟩
  · rw [ChildPortal.getCurrentActiveTaskFromSchedule]
    rw [List.find?_eq_none]
    constructor
    · intro h t htm
      have := h t htm
      simpa using this
    · intro h t htm
      simp [h t htm]
  · intro l1 t l2 hsplit hprev hdue
    subst hsplit
    rw [ChildPortal.getCurrentActiveTaskFromSchedule]
    induction l1 with
    | nil =>
      simp only [List.nil_append]
      exact List.find?_cons_of_pos _ hdue
    | cons u rest ih =>
      rw [List.cons_append]
      rw [List.find?_cons_of_neg _ (by simp [hprev u (by simp)])]
      exact ih (fun v hv => hprev v (by simp [hv]))
  · intro f
    induction tasks with
    | nil => rfl
    | cons a t ih =>
      rw [List.map_cons, ChildPortal.getCurrentActiveTaskFromSchedule]
      by_cases hd : ChildPortal.taskDue now a = true
      · rw [List.find?_cons_of_pos _ (by exact hd)]
        rw [ChildPortal.getCurrentActiveTaskFromSchedule, List.find?_cons_of_pos _ hd]
        rfl
      · rw [List.find?_cons_of_neg _ (by simpa using hd)]
        rw [ChildPortal.getCurrentActiveTaskFromSchedule,
          List.find?_cons_of_neg _ (by simpa using hd)]
        rw [ChildPortal.getCurrentActiveTaskFromSchedule] at ih
        exact ih

/-- C9 witness: at minute 545 the first demo task is selected, is due, and
is a member of the list. -/
theorem claim_C9_witness :
    ChildPortal.taskDue 545 demoTask = true ∧ demoTask ∈ [demoTask, demoTaskB] :=
  (claim_C9_currently_due [demoTask, demoTaskB] 545).1 demoTask (by decide)

end KidsCalendar

namespace KidsCalendar

theorem onUpdateTask_factor (children : List Child) (childId : String) (task : Task)
    (speech : TaskStatus → Language → Option String) :
    ∃ ts : Task, AppState.onUpdateTask children childId task speech =
      AppState.onUpdateTaskLocal children childId ts ∧
      ts.status = task.status ∧ ts.startTime = task.startTime ∧ ts.id = task.id := by
  rw [AppState.onUpdateTask]
  refine ⟨_, rfl, ?_, ?_, ?_⟩ <;> (split <;> rfl)

theorem onUpdateTaskLocal_zip (children : List Child) (childId : String) (t : Task) :
    ∀ p ∈ children.zip (AppState.onUpdateTaskLocal children childId t),
      (p.1.id ≠ childId → p.2 = p.1) ∧
      (p.1.id = childId →
        ∀ q ∈ p.1.tasks.zip p.2.tasks,
          (q.1.id ≠ t.id → q.2 = q.1) ∧ (q.1.id = t.id → q.2 = t)) := by
  intro p hp
  have h2 := zip_map_snd _ children p hp
  constructor
  · intro hne
    rw [h2]
    simp [hne]
  · intro heq
    rw [h2]
    simp only [heq, beq_self_eq_true, if_true]
    intro q hq
    have h3 := zip_map_snd _ p.1.tasks q hq
    constructor
    · intro hqne
      rw [h3]
      simp [hqne]
    · intro hqeq
      rw [h3]
      simp [hqeq]

/-- C8 counterexample: editing a started task through the guardian edit flow
does not reset its status to pending nor clear its startTime: the saved task
keeps status active and startTime 5. -/
theorem claim_C8_cex :
    (ParentDashboard.handleSaveTask (ParentDashboard.applyFormEdits demoTaskActive demoEdits)
        RecurrenceFrequency.none [] "" 1 demoTaskActive.id).map Task.status =
      some TaskStatus.active ∧
    (ParentDashboard.handleSaveTask (ParentDashboard.applyFormEdits demoTaskActive demoEdits)
        RecurrenceFrequency.none [] "" 1 demoTaskActive.id).map Task.startTime =
      some (some 5) ∧
    TaskStatus.active ≠ TaskStatus.pending := by
  refine ⟨by decide, by decide, by decide⟩

/-- C8 amended: the guardian edit operation (handleEditTaskRequest,
handleSaveTask, onUpdateTask) preserves the status and startTime of the
edited task rather than resetting them; all other tasks and children are
unchanged. -/
theorem claim_C8_edit_preserves_status (children : List Child) (childId : String)
    (original : Task) (e : ParentDashboard.TaskFormEdits) (rf : RecurrenceFrequency)
    (rd : List Nat) (re : String) (rdm : Nat)
    (speech : TaskStatus → Language → Option String) (cs2 : List Child)
    (hsave : AppState.guardianEditTask children childId original e rf rd re rdm speech =
      some cs2) :
    ∃ saved, ParentDashboard.handleSaveTask (ParentDashboard.applyFormEdits original e)
        rf rd re rdm original.id = some saved ∧
      saved.status = original.status ∧ saved.startTime = original.startTime ∧
      saved.id = original.id ∧
      ∀ p ∈ children.zip cs2,
        (p.1.id ≠ childId → p.2 = p.1) ∧
        (p.1.id = childId →
          ∀ q ∈ p.1.tasks.zip p.2.tasks,
            (q.1.id ≠ original.id → q.2 = q.1) ∧
            (q.1.id = original.id →
              q.2.status = original.status ∧ q.2.startTime = original.startTime)) := by
  rw [AppState.guardianEditTask, Option.map_eq_some'] at hsave
  obtain ⟨saved, hs, hcs⟩ := hsave
  have hfields : saved.status = original.status ∧ saved.startTime = original.startTime ∧
      saved.id = original.id := by
    rw [ParentDashboard.handleSaveTask] at hs
    split at hs
    · exact absurd hs (by simp)
    · split at hs
      · exact absurd hs (by simp)
      · split at hs
        · exact absurd hs (by simp)
        · have := Option.some.inj hs
          rw [← this]
          exact ⟨rfl, rfl, rfl⟩
  obtain ⟨hstat, hstart, hid⟩ := hfields
  refine ⟨saved, hs, hstat, hstart, hid, ?_⟩
  obtain ⟨ts, hloc, tstat, tstart, tid⟩ := onUpdateTask_factor children childId saved speech
  rw [← hcs, hloc]
  intro p hp
  have hz := onUpdateTaskLocal_zip children childId ts p (by rw [← hloc, hcs] at hp ⊢; exact hp)
  refine ⟨hz.1, ?_⟩
  intro heq q hq
  have hzq := hz.2 heq q (by exact hq)
  constructor
  · intro hqne
    exact hzq.1 (by rw [tid, hid]; exact hqne)
  · intro hqeq
    have : q.2 = ts := hzq.2 (by rw [tid, hid]; exact hqeq)
    rw [this, tstat, tstart, hstat, hstart]
    exact ⟨rfl, rfl⟩

/-- C8 witness: on the concrete family, editing the started task yields a
saved task that still carries status active. -/
theorem claim_C8_witness :
    (ParentDashboard.handleSaveTask (ParentDashboard.applyFormEdits demoTaskActive demoEdits)
        RecurrenceFrequency.none [] "" 1 demoTaskActive.id).map Task.status =
      some demoTaskActive.status := by
  obtain ⟨saved, hs, hstat, -⟩ := claim_C8_edit_preserves_status demoChildren "c1"
    demoTaskActive demoEdits RecurrenceFrequency.none [] "" 1 demoSpeech
    ((AppState.guardianEditTask demoChildren "c1" demoTaskActive demoEdits
      RecurrenceFrequency.none [] "" 1 demoSpeech).getD []) (by decide)
  rw [hs, Option.map_some', hstat]

end KidsCalendar

namespace KidsCalendar

namespace MigrationService

theorem migrateChildren_nil (r : Remote) : migrateChildren [] r = r := rfl

theorem migrateChildren_cons (a : Child) (t : List Child) (r : Remote) :
    migrateChildren (a :: t) r = migrateChildren t (migrateChild r a) := by
  rw [migrateChildren, migrateChildren, List.foldl_cons]

theorem migrateChild_contains_mono (r : Remote) (c : Child) (x : String)
    (h : r.childIds.contains x = true) :
    (migrateChild r c).childIds.contains x = true := by
  rw [migrateChild]
  split
  · exact h
  · simp only [List.contains_cons, h, Bool.or_true]

theorem migrateChildren_contains_mono :
    ∀ (cs : List Child) (r : Remote) (x : String), r.childIds.contains x = true →
      (migrateChildren cs r).childIds.contains x = true := by
  intro cs
  induction cs with
  | nil => intro r x h; exact h
  | cons a t ih =>
    intro r x h
    rw [migrateChildren_cons]
    exact ih (migrateChild r a) x (migrateChild_contains_mono r a x h)

theorem mem_migrateChildren :
    ∀ (cs : List Child) (r : Remote) (c : Child), c ∈ cs →
      (migrateChildren cs r).childIds.contains c.id = true := by
  intro cs
  induction cs with
  | nil => intro r c hc; simp at hc
  | cons a t ih =>
    intro r c hc
    rw [migrateChildren_cons]
    rcases List.mem_cons.mp hc with rfl | hct
    · have ha : (migrateChild r c).childIds.contains c.id = true := by
        rw [migrateChild]
        split
        · assumption
        · simp
      exact migrateChildren_contains_mono t (migrateChild r c) c.id ha
    · exact ih (migrateChild r a) c hct

theorem migrateChildren_skip :
    ∀ (cs : List Child) (r : Remote), (∀ c ∈ cs, r.childIds.contains c.id = true) →
      migrateChildren cs r = r := by
  intro cs
  induction cs with
  | nil => intro r _; rfl
  | cons a t ih =>
    intro r h
    rw [migrateChildren_cons]
    have ha : migrateChild r a = r := by
      rw [migrateChild, if_pos (h a (by simp))]
    rw [ha]
    exact ih r (fun c hc => h c (by simp [hc]))

theorem migrateChildren_idem (cs : List Child) (r : Remote) :
    migrateChildren cs (migrateChildren cs r) = migrateChildren cs r :=
  migrateChildren_skip cs (migrateChildren cs r)
    (fun c hc => mem_migrateChildren cs r c hc)

theorem childLog_stable :
    ∀ (cs : List Child) (r : Remote) (cid : String), r.childIds.contains cid = true →
      (migrateChildren cs r).childLog.count cid = r.childLog.count cid := by
  intro cs
  induction cs with
  | nil => intro r cid _; rfl
  | cons a t ih =>
    intro r cid h
    rw [migrateChildren_cons]
    by_cases hmem : r.childIds.contains a.id = true
    · rw [(by rw [migrateChild, if_pos hmem] : migrateChild r a = r)]
      exact ih r cid h
    · have hne : a.id ≠ cid := by
        intro he
        rw [he] at hmem
        exact hmem h
      have hstep : (migrateChild r a).childLog.count cid = r.childLog.count cid := by
        rw [migrateChild, if_neg hmem]
        simp [List.count_append, List.count_cons, hne]
      have hcont : (migrateChild r a).childIds.contains cid = true :=
        migrateChild_contains_mono r a cid h
      rw [ih (migrateChild r a) cid hcont, hstep]

theorem childLog_once :
    ∀ (cs : List Child) (r : Remote) (cid : String),
      (migrateChildren cs r).childLog.count cid ≤ r.childLog.count cid + 1 := by
  intro cs
  induction cs with
  | nil => intro r cid; exact Nat.le_succ _
  | cons a t ih =>
    intro r cid
    rw [migrateChildren_cons]
    by_cases hmem : r.childIds.contains a.id = true
    · rw [(by rw [migrateChild, if_pos hmem] : migrateChild r a = r)]
      exact ih r cid
    · by_cases hcid : a.id = cid
      · have hcont : (migrateChild r a).childIds.contains cid = true := by
          rw [migrateChild, if_neg hmem]
          simp [hcid]
        rw [childLog_stable t (migrateChild r a) cid hcont]
        rw [migrateChild, if_neg hmem]
        simp only [List.count_append, hcid]
        simp [List.count_cons]
      · have hstep : (migrateChild r a).childLog.count cid = r.childLog.count cid := by
          rw [migrateChild, if_neg hmem]
          simp [List.count_append, List.count_cons, hcid]
        have := ih (migrateChild r a) cid
        omega

theorem taskLog_bound :
    ∀ (cs : List Child) (r : Remote) (tid : String),
      (migrateChildren cs r).taskLog.count tid ≤
        r.taskLog.count tid + (allTaskIds cs).count tid := by
  intro cs
  induction cs with
  | nil => intro r tid; simp [migrateChildren_nil, allTaskIds]
  | cons a t ih =>
    intro r tid
    rw [migrateChildren_cons]
    have hall : (allTaskIds (a :: t)).count tid =
        (a.tasks.map Task.id).count tid + (allTaskIds t).count tid := by
      rw [allTaskIds, List.map_cons, List.flatten]
      simp [List.count_append, allTaskIds]
    by_cases hmem : r.childIds.contains a.id = true
    · rw [(by rw [migrateChild, if_pos hmem] : migrateChild r a = r)]
      have := ih r tid
      omega
    · have hstep : (migrateChild r a).taskLog.count tid =
          r.taskLog.count tid + (a.tasks.map Task.id).count tid := by
        rw [migrateChild, if_neg hmem]
        simp [List.count_append]
      have := ih (migrateChild r a) tid
      omega

theorem rewardLog_bound :
    ∀ (cs : List Child) (r : Remote) (rid : String),
      (migrateChildren cs r).rewardLog.count rid ≤
        r.rewardLog.count rid + (allRewardIds cs).count rid := by
  intro cs
  induction cs with
  | nil => intro r rid; simp [migrateChildren_nil, allRewardIds]
  | cons a t ih =>
    intro r rid
    rw [migrateChildren_cons]
    have hall : (allRewardIds (a :: t)).count rid =
        (a.rewards.map Reward.id).count rid + (allRewardIds t).count rid := by
      rw [allRewardIds, List.map_cons, List.flatten]
      simp [List.count_append, allRewardIds]
    by_cases hmem : r.childIds.contains a.id = true
    · rw [(by rw [migrateChild, if_pos hmem] : migrateChild r a = r)]
      have := ih r rid
      omega
    · have hstep : (migrateChild r a).rewardLog.count rid =
          r.rewardLog.count rid + (a.rewards.map Reward.id).count rid := by
        rw [migrateChild, if_neg hmem]
        simp [List.count_append]
      have := ih (migrateChild r a) rid
      omega

end MigrationService

/-- C5: running the migration twice over the same snapshot is idempotent on
the remote store: the second run changes nothing, each child is inserted at
most once across both runs, and a task or reward id occurring once in the
snapshot is inserted at most once across both runs. -/
theorem claim_C5_migration_idempotent (st : MigrationService.InstallState)
    (r : MigrationService.Remote) :
    (MigrationService.migrateLocalStorageToSupabase
        (MigrationService.migrateLocalStorageToSupabase st r).2.1
        (MigrationService.migrateLocalStorageToSupabase st r).2.2).2.2 =
      (MigrationService.migrateLocalStorageToSupabase st r).2.2 ∧
    (∀ cid : String,
      (MigrationService.migrateLocalStorageToSupabase
          (MigrationService.migrateLocalStorageToSupabase st r).2.1
          (MigrationService.migrateLocalStorageToSupabase st r).2.2).2.2.childLog.count cid ≤
        r.childLog.count cid + 1) ∧
    (∀ cs, st.snapshot = some cs → ∀ tid : String,
      (MigrationService.allTaskIds cs).count tid ≤ 1 →
      (MigrationService.migrateLocalStorageToSupabase
          (MigrationService.migrateLocalStorageToSupabase st r).2.1
          (MigrationService.migrateLocalStorageToSupabase st r).2.2).2.2.taskLog.count tid ≤
        r.taskLog.count tid + 1) ∧
    (∀ cs, st.snapshot = some cs → ∀ rid : String,
      (MigrationService.allRewardIds cs).count rid ≤ 1 →
      (MigrationService.migrateLocalStorageToSupabase
          (MigrationService.migrateLocalStorageToSupabase st r).2.1
          (MigrationService.migrateLocalStorageToSupabase st r).2.2).2.2.rewardLog.count rid ≤
        r.rewardLog.count rid + 1) := by
  cases hsnap : st.snapshot with
  | none =>
    simp only [MigrationService.migrateLocalStorageToSupabase, hsnap]
    refine ⟨trivial, fun cid => Nat.le_succ _, ?_, ?_⟩
    · intro cs hcs
      exact absurd hcs (by simp)
    · intro cs hcs
      exact absurd hcs (by simp)
  | some cs =>
    simp only [MigrationService.migrateLocalStorageToSupabase, hsnap]
    refine ⟨MigrationService.migrateChildren_idem cs r, ?_, ?_, ?_⟩
    · intro cid
      rw [MigrationService.migrateChildren_idem cs r]
      exact MigrationService.childLog_once cs r cid
    · intro cs2 hcs2 tid htid
      have he : cs = cs2 := Option.some.inj hcs2
      subst he
      rw [MigrationService.migrateChildren_idem cs r]
      have := MigrationService.taskLog_bound cs r tid
      omega
    · intro cs2 hcs2 rid hrid
      have he : cs = cs2 := Option.some.inj hcs2
      subst he
      rw [MigrationService.migrateChildren_idem cs r]
      have := MigrationService.rewardLog_bound cs r rid
      omega

/-- C5 witness: for the concrete one-child snapshot over an empty remote,
the task id t1 occurs once and is inserted at most once across two runs. -/
theorem claim_C5_witness :
    (MigrationService.allTaskIds [demoChild]).count "t1" ≤ 1 ∧
    (MigrationService.migrateLocalStorageToSupabase
        (MigrationService.migrateLocalStorageToSupabase
          ⟨some [demoChild], false⟩ ⟨[], [], [], []⟩).2.1
        (MigrationService.migrateLocalStorageToSupabase
          ⟨some [demoChild], false⟩ ⟨[], [], [], []⟩).2.2).2.2.taskLog.count "t1" ≤
      (⟨[], [], [], []⟩ : MigrationService.Remote).taskLog.count "t1" + 1 := by
  refine ⟨by decide, ?_⟩
  exact (claim_C5_migration_idempotent ⟨some [demoChild], false⟩ ⟨[], [], [], []⟩).2.2.1
    [demoChild] rfl "t1" (by decide)

/-- C4: the persisted migration flag is set by a successful run over a
stored snapshot, but it is never consulted: with the flag already true the
login trigger still runs the migration (it inserts the snapshot child into
an empty remote), and the outcome is independent of the flag value. -/
theorem claim_C4_flag_never_guards :
    (MigrationService.migrateLocalStorageToSupabase
        ⟨some [demoChild], false⟩ ⟨[], [], [], []⟩).2.1.migratedFlag = true ∧
    (MigrationService.triggerMigration true
        ⟨some [demoChild], true⟩ ⟨[], [], [], []⟩).2.2.childLog = ["c1"] ∧
    (∀ (snap : Option (List Child)) (flag1 flag2 : Bool) (r : MigrationService.Remote)
        (hasUser : Bool),
      (MigrationService.triggerMigration hasUser ⟨snap, flag1⟩ r).2.2 =
        (MigrationService.triggerMigration hasUser ⟨snap, flag2⟩ r).2.2) := by
  refine ⟨by decide, by decide, ?_⟩
  intro snap flag1 flag2 r hasUser
  cases hasUser with
  | false => rfl
  | true =>
    cases snap with
    | none => rfl
    | some cs => rfl

end KidsCalendar

namespace KidsCalendar

/-- C6: for a weekly rule with a nonempty daysOfWeek set and any reference
date not after the endDate bound, an occurrence exists on that date exactly
when the day of week of the date is a member of daysOfWeek. -/
theorem claim_C6_weekly_occurrence (rule : TaskRecurrence) (d : SpecModel.CivilDate)
    (hw : rule.frequency = RecurrenceFrequency.weekly)
    (_hne : rule.days ≠ [])
    (hend : SpecModel.withinEnd rule d = true) :
    (SpecModel.occursOn rule d = true ↔ SpecModel.dayOfWeek d ∈ rule.days) := by
  rw [SpecModel.occursOn, hw, hend]
  simp [List.elem_iff]

/-- C6 witness: the Monday, Wednesday, Friday rule produces an occurrence on
Monday 2025-10-13, a date within its end bound. -/
theorem claim_C6_witness :
    SpecModel.occursOn demoWeeklyRule ⟨2025, 10, 13⟩ = true ∧
    SpecModel.dayOfWeek ⟨2025, 10, 13⟩ = 1 := by
  have h := claim_C6_weekly_occurrence demoWeeklyRule ⟨2025, 10, 13⟩ rfl
    (by decide) (by decide)
  exact ⟨h.mpr (by decide), by decide⟩

end KidsCalendar
